import Mathlib

/-!
Verification of the filter-combinator core of the `myth` HTTP routing library.

The Rust sources are shallowly embedded: each combinator is a hand-written
`poll` state machine over futures; since every child future is polled to
completion before the parent continues, a combinator collapses to a pure
function `Request → RequestState → Input → RequestState × Outcome`.
Pending/suspension is irrelevant to the properties below, so the embedding
threads state explicitly and treats the bound async functions as pure
functions.

Strings: request paths are byte slices in Rust (`str`); they are embedded as
`List Char` with the path cursor counting list elements.  Hyper URI paths are
ASCII (non-ASCII must be percent-encoded on the wire), so element indices and
byte indices coincide on every input the server can see.
-/

namespace Myth

/-- Embeds `BoxedFilterError = Box<dyn FilterError>` (src/errors.rs): a
type-erased error value carrying its runtime `TypeId`.  The concrete error
types appearing in the verified claims get their own constructors
(`ForwardParam` from src/path.rs, `Redirect` from src/path.rs,
`ContentLengthError` from src/body.rs); every other user error type is
`other ty data` with `ty` naming its `TypeId` and `data` its payload. -/
inductive ErrPayload where
  | forwardParam : ErrPayload
  | redirect (location : List Char) : ErrPayload
  | contentLength (length : Nat) : ErrPayload
  | other (ty : Nat) (data : Nat) : ErrPayload
deriving DecidableEq

/-- Runtime type identity (`Any::type_id(&*self)` in `dyn FilterError::downcast`):
two errors have equal `typeId` exactly when they are values of the same Rust
type.  The three named constructors are distinct types; `other ty _` is
offset by 3 so it never collides with a named one. -/
def typeId : ErrPayload → Nat
  | .forwardParam => 0
  | .redirect _ => 1
  | .contentLength _ => 2
  | .other ty _ => ty + 3

/-- The declared error type `E: Recoverable` of a `Recover`/`RecoverForward`
(src/errors.rs): either a concrete `T: FilterError` type, identified by its
`TypeId`, or the universal `BoxedFilterError` itself. -/
inductive RTarget where
  | concrete (ty : Nat) : RTarget
  | universal : RTarget
deriving DecidableEq

/-- Embeds `Recoverable::recover` (src/errors.rs):
for a concrete `T: FilterError` it is `dyn FilterError::downcast`, which
compares `Any::type_id(&*self)` with `TypeId::of::<T>()` and returns
`Ok(typed)` on equality, `Err(self)` (the untouched original box) otherwise;
the `BoxedFilterError` impl returns `Ok(boxed)` unconditionally. -/
def RTarget.recoverErr : RTarget → ErrPayload → Except ErrPayload ErrPayload
  | .concrete ty, e => if typeId e = ty then .ok e else .error e
  | .universal, e => .ok e

/-- Embeds `FilterError::into_response`'s status code (a `Response` is
elided to its status): `Redirect` gives `PERMANENT_REDIRECT` (308),
`ContentLengthError` gives `PAYLOAD_TOO_LARGE` (413), the blanket
`StdError` / default impls give `INTERNAL_SERVER_ERROR` (500), and
`ForwardParam::into_response` is `unimplemented!()`, embedded as `none`. -/
def intoResponseStatus : ErrPayload → Option Nat
  | .forwardParam => none
  | .redirect _ => some 308
  | .contentLength _ => some 413
  | .other _ _ => some 500

/-- Embeds `AttemptedMethods` (src/forward.rs): a `u16` bitmask of attempted
methods.  Only `|` and `&` are applied to it; `Nat.lor`/`Nat.land` of values
below `2 ^ 16` stay below `2 ^ 16`, so `u16` wrapping is never engaged and a
plain `Nat` is a faithful model of every reachable value. -/
abbrev AttemptedMethods := Nat

/-- Embeds `Forwarding` (src/forward.rs). -/
inductive Forwarding where
  | notFound : Forwarding
  | methodNotAllowed (attempted : AttemptedMethods) : Forwarding
deriving DecidableEq

/-- Embeds `Forwarding::combine` (src/forward.rs lines 36-47). -/
def Forwarding.combine : Forwarding → Forwarding → Forwarding
  | .notFound, other => other
  | .methodNotAllowed attempted, .notFound => .methodNotAllowed attempted
  | .methodNotAllowed attempted, .methodNotAllowed otherAttempted =>
      .methodNotAllowed (attempted ||| otherAttempted)

/-- Embeds `Outcome<C, S>` (src/outcome.rs). -/
inductive Outcome (C S : Type) where
  | success (s : S) : Outcome C S
  | error (e : ErrPayload) : Outcome C S
  | forward (input : C) (forwarding : Forwarding) : Outcome C S
deriving DecidableEq

/-- Embeds `BodyState` (src/request.rs): body chunks are lists of byte
values. -/
inductive BodyState where
  | pending (bytes : List (List Nat)) (len : Nat) : BodyState
  | finished (bytes : List (List Nat)) (len : Nat) : BodyState
  | bodyError : BodyState
deriving DecidableEq

/-- Embeds `Request` (src/request.rs), restricted to the fields the claims
under verification read: `uri.path()` (`full_path`) and the
`Content-Length` header value (`method`, `version`, the remaining headers and
`remote_addr` are never consulted by the verified code paths). -/
structure Request where
  fullPath : List Char
  contentLength : Option (List Char)
deriving DecidableEq

/-- Embeds `RequestState` (src/request.rs): the mutable per-request state
threaded through every filter (`on_upgrade` is elided: no verified code path
touches it). -/
structure RequestState where
  body : BodyState
  currentPathIndex : Nat
deriving DecidableEq

/-- Embeds `RequestState::current_path`: the not-yet-consumed suffix of the
full path. -/
def RequestState.currentPath (st : RequestState) (request : Request) : List Char :=
  request.fullPath.drop st.currentPathIndex

/-- Embeds `RequestState::previous_path`: the already-consumed portion of the
full path. -/
def RequestState.previousPath (st : RequestState) (request : Request) : List Char :=
  request.fullPath.take st.currentPathIndex

/-- A filter step: `FilterExecute::execute` followed by polling the returned
future to completion (src/filter/mod.rs).  The shared `Request`, the owned
`RequestState` and the typed input go in; the state comes back with the
tri-state outcome.  Success and input arities are plain Lean types; the
source's heterogeneous tuple `Append`/`remove` pairs become `Prod.mk` and
`fst`/`snd`. -/
def Filter (C S : Type) : Type :=
  Request → RequestState → C → RequestState × Outcome C S

/-- Embeds `Or` / `OrFuture::poll` (src/filter/or.rs): records
`current_path_index` at entry; `first`'s Success/Error pass through; on
Forward the cursor is reset to the entry value and `second` runs with the
forwarded input; if `second` also forwards, the cursor is reset again and the
two reasons combine. -/
def orF {C S : Type} (first second : Filter C S) : Filter C S :=
  fun request st input =>
    let pathIndex := st.currentPathIndex
    match first request st input with
    | (st1, .success s) => (st1, .success s)
    | (st1, .error e) => (st1, .error e)
    | (st1, .forward inp fwd1) =>
      match second request { st1 with currentPathIndex := pathIndex } inp with
      | (st2, .success s) => (st2, .success s)
      | (st2, .error e) => (st2, .error e)
      | (st2, .forward inp2 fwd2) =>
          ({ st2 with currentPathIndex := pathIndex },
            .forward inp2 (fwd1.combine fwd2))

/-- Embeds `And` / `AndFuture::poll` (src/filter/and.rs): `first` runs with
unit input; on its Success, `second` runs with the composite's original input
and the successes are appended; on `first` Forward the original input is
returned untouched; `second`'s outcome passes through with only Success
mapped. -/
def andF {SA C SB : Type} (first : Filter Unit SA) (second : Filter C SB) :
    Filter C (SA × SB) :=
  fun request st input =>
    match first request st () with
    | (st1, .success sa) =>
      match second request st1 input with
      | (st2, .success sb) => (st2, .success (sa, sb))
      | (st2, .error e) => (st2, .error e)
      | (st2, .forward inp fwd) => (st2, .forward inp fwd)
    | (st1, .error e) => (st1, .error e)
    | (st1, .forward _ fwd) => (st1, .forward input fwd)

/-- Embeds `Then` / `ConsumeFuture::poll` (src/filter/then.rs): the
composite's input `R` is prepended to `first`'s success for `second`; on
`first` Forward, `R` is returned untouched; on `second` Forward, the `R`
prefix is split back off its input (`remove(input).0`). -/
def thenF {SA R S : Type} (first : Filter Unit SA) (second : Filter (R × SA) S) :
    Filter R S :=
  fun request st input =>
    match first request st () with
    | (st1, .success sa) =>
      match second request st1 (input, sa) with
      | (st2, .success s) => (st2, .success s)
      | (st2, .error e) => (st2, .error e)
      | (st2, .forward inp fwd) => (st2, .forward inp.1 fwd)
    | (st1, .error e) => (st1, .error e)
    | (st1, .forward _ fwd) => (st1, .forward input fwd)

/-- Embeds `Receive` / `ReceiveFuture::poll` (src/filter/receive.rs): the
prefix `R` is split off the composite input before the inner filter runs, and
re-prepended onto the resulting Success and onto any Forward input. -/
def receiveF {R CI S : Type} (filter : Filter CI S) : Filter (R × CI) (R × S) :=
  fun request st input =>
    match filter request st input.2 with
    | (st1, .success s) => (st1, .success (input.1, s))
    | (st1, .error e) => (st1, .error e)
    | (st1, .forward inp fwd) => (st1, .forward (input.1, inp) fwd)

/-- Embeds `Handle` / `HandleFuture::poll` (src/filter/handle.rs): on the
inner filter's Success the bound function runs, `Ok` becoming Success and
`Err` becoming Error; Error and Forward pass through unmodified.  The
source's one-tuple wrapping `(F::Ok,)` of the result is elided. -/
def handleF {C S T : Type} (filter : Filter C S) (func : S → Except ErrPayload T) :
    Filter C T :=
  fun request st input =>
    match filter request st input with
    | (st1, .success s) =>
      match func s with
      | .ok v => (st1, .success v)
      | .error e => (st1, .error e)
    | (st1, .error e) => (st1, .error e)
    | (st1, .forward inp fwd) => (st1, .forward inp fwd)

/-- Embeds `Recover` / `RecoverFuture::poll` (src/filter/recover.rs): records
`current_path_index` at entry; on inner Success the cursor is reset to the
entry value; on inner Error, `E::recover` attempts the exact-type downcast -
on match the cursor is reset and the recovery function runs (`Ok` becoming
Success with the cursor reset again, `Err` becoming Error); on mismatch the
original error propagates with the state untouched; Forward passes through.
The source's `OneTuple` wrapping of the success is elided. -/
def recoverF {C S : Type} (filter : Filter C S) (target : RTarget)
    (func : ErrPayload → Except ErrPayload S) : Filter C S :=
  fun request st input =>
    let pathIndex := st.currentPathIndex
    match filter request st input with
    | (st1, .success s) => ({ st1 with currentPathIndex := pathIndex }, .success s)
    | (st1, .error e) =>
      match target.recoverErr e with
      | .ok typed =>
        let st2 := { st1 with currentPathIndex := pathIndex }
        match func typed with
        | .ok v => ({ st2 with currentPathIndex := pathIndex }, .success v)
        | .error e2 => (st2, .error e2)
      | .error e2 => (st1, .error e2)
    | (st1, .forward inp fwd) => (st1, .forward inp fwd)

/-- Embeds `RecoverForward` / `RecoverForwardFuture::poll`
(src/filter/recover_forward.rs): on inner Error, `E::recover` attempts the
exact-type downcast - on match the recovery function runs (`Ok fwd` becoming
`Forward { input: (), forwarding: fwd }`, `Err` becoming Error); on mismatch
the original error propagates; Success and Forward pass through.  Unlike
`Recover`, no entry cursor is recorded and the cursor is never reset: the
`RequestState` is returned exactly as the wrapped filter produced it. -/
def recoverForwardF {S : Type} (filter : Filter Unit S) (target : RTarget)
    (func : ErrPayload → Except ErrPayload Forwarding) : Filter Unit S :=
  fun request st _ =>
    match filter request st () with
    | (st1, .error e) =>
      match target.recoverErr e with
      | .ok typed =>
        match func typed with
        | .ok fwd => (st1, .forward () fwd)
        | .error e2 => (st1, .error e2)
      | .error e2 => (st1, .error e2)
    | (st1, .success s) => (st1, .success s)
    | (st1, .forward inp fwd) => (st1, .forward inp fwd)

/-- Index of the first `'/'` in a list of characters, or the length when none
occurs: embeds `str::find('/').unwrap_or(len)` as used by `segment`
(src/path.rs). -/
def slashIndex : List Char → Nat
  | [] => 0
  | c :: rest => if c = '/' then 0 else slashIndex rest + 1

/-- Embeds `segment` (src/path.rs): on the remaining path, empty or exactly
`/` give none; a leading `/` is skipped and the segment reaches to the next
`/` (advance length includes the leading separator); otherwise the segment
starts at the cursor. -/
def segmentFn (fullPath : List Char) (idx : Nat) : Option (List Char × Nat) :=
  match fullPath.drop idx with
  | [] => none
  | c :: rest =>
    if c = '/' then
      match rest with
      | [] => none
      | _ => some (rest.take (slashIndex rest), slashIndex rest + 1)
    else
      some ((c :: rest).take (slashIndex (c :: rest)), slashIndex (c :: rest))

/-- Value of an ASCII hex digit, or none. -/
def hexVal (c : Char) : Option Nat :=
  if '0' ≤ c ∧ c ≤ '9' then some (c.toNat - 48)
  else if 'a' ≤ c ∧ c ≤ 'f' then some (c.toNat - 87)
  else if 'A' ≤ c ∧ c ≤ 'F' then some (c.toNat - 55)
  else none

/-- Models the external `percent_encoding` crate's
`percent_decode_str(..).decode_utf8_lossy()` as called by `decoded_segment`
(src/path.rs): a `%` followed by two hex digits decodes to that byte, any
other `%` passes through verbatim.  Decoded bytes are mapped through
`Char.ofNat`; multi-byte UTF-8 assembly and lossy replacement are abstracted
(the verified inputs are ASCII). -/
def percentDecode : List Char → List Char
  | [] => []
  | '%' :: a :: b :: rest2 =>
    match hexVal a, hexVal b with
    | some ha, some hb => Char.ofNat (16 * ha + hb) :: percentDecode rest2
    | _, _ => '%' :: percentDecode (a :: b :: rest2)
  | c :: rest => c :: percentDecode rest

/-- Embeds `decoded_segment` (src/path.rs lines 100-119): takes the next
segment, percent-decodes it, applies `func`; on `some` the cursor advances by
the segment's length and the value is the Success; when no segment remains or
`func` gives none, the outcome is `Forward(NotFound)` with the cursor
untouched. -/
def decodedSegment {S : Type} (request : Request) (st : RequestState)
    (func : List Char → Option S) : RequestState × Outcome Unit S :=
  match segmentFn request.fullPath st.currentPathIndex with
  | some (seg, len) =>
    match func (percentDecode seg) with
    | some success =>
        ({ st with currentPathIndex := st.currentPathIndex + len }, .success success)
    | none => (st, .forward () .notFound)
  | none => (st, .forward () .notFound)

/-- Embeds `param_str` (src/path.rs): percent-decodes the next segment and
succeeds with it unconditionally, advancing the cursor. -/
def paramStr : Filter Unit (List Char) :=
  fun request st _ => decodedSegment request st (fun seg => some seg)

/-- Embeds `literal` (src/path.rs): matches when the decoded segment equals
`value` exactly (case-sensitively), advancing only on match.  The
construction-time assertions (`value` nonempty, no `/`) are preconditions of
the claims that use it. -/
def literal (value : List Char) : Filter Unit Unit :=
  fun request st _ =>
    decodedSegment request st (fun seg => if seg = value then some () else none)

/-- Models `<i32 as FromStr>::from_str` from the Rust standard library
(external to this repository), as instantiated by `param::<i32>`: an optional
sign, then at least one decimal digit, rejecting any other character and
values outside the `i32` range. -/
def digitsValAux : List Char → Nat → Option Nat
  | [], acc => some acc
  | c :: rest, acc =>
    if '0' ≤ c ∧ c ≤ '9' then digitsValAux rest (acc * 10 + (c.toNat - 48))
    else none

/-- Decimal parse of an `i32`, see `digitsValAux`. -/
def i32FromStr (s : List Char) : Option Int :=
  match s with
  | [] => none
  | '+' :: rest =>
    match rest with
    | [] => none
    | _ => (digitsValAux rest 0).bind fun n =>
        if n ≤ 2147483647 then some (n : Int) else none
  | '-' :: rest =>
    match rest with
    | [] => none
    | _ => (digitsValAux rest 0).bind fun n =>
        if n ≤ 2147483648 then some (-(n : Int)) else none
  | _ => (digitsValAux s 0).bind fun n =>
      if n ≤ 2147483647 then some (n : Int) else none

/-- Embeds `param::<T>` (src/path.rs lines 64-79): `param_str()` handled by
`T::from_str`, a parse failure raising the private `ForwardParam` error,
wrapped in a `recover_forward` for exactly `ForwardParam` that turns it into
`Forwarding::NotFound`. -/
def param {τ : Type} (fromStr : List Char → Option τ) : Filter Unit τ :=
  recoverForwardF
    (handleF paramStr (fun seg =>
      match fromStr seg with
      | some v => .ok v
      | none => .error .forwardParam))
    (.concrete (typeId .forwardParam))
    (fun _ => .ok .notFound)

/-- Embeds `end` (src/path.rs lines 137-158): Success when the full request
path is `""` or `"/"`, or when no path remains at the cursor; an `Error`
carrying `Redirect { location: previous_path }` when exactly `"/"` remains;
`Forward(NotFound)` otherwise. -/
def endFilter : Filter Unit Unit :=
  fun request st _ =>
    if request.fullPath = [] ∨ request.fullPath = ['/'] then (st, .success ())
    else
      match request.fullPath.drop st.currentPathIndex with
      | [] => (st, .success ())
      | ['/'] => (st, .error (.redirect (request.fullPath.take st.currentPathIndex)))
      | _ => (st, .forward () .notFound)

/-- Embeds `BytesBuf` (src/body.rs): an ordered queue of byte chunks plus the
running total remaining length. -/
structure BytesBuf where
  bytes : List (List Nat)
  len : Nat
deriving DecidableEq

/-- Embeds `Buf::remaining for BytesBuf`. -/
def BytesBuf.remaining (buf : BytesBuf) : Nat := buf.len

/-- Embeds the chunk-walking loop of `BytesBuf::advance`: drop `cnt` bytes
from the front, splitting the chunk reached (`front.advance(cnt)` when
`cnt < front.len()`) or popping exhausted chunks. -/
def advanceChunks : List (List Nat) → Nat → List (List Nat)
  | [], _ => []
  | front :: rest, cnt =>
    if cnt < front.length then front.drop cnt :: rest
    else advanceChunks rest (cnt - front.length)

/-- Embeds `BytesBuf::advance` (src/body.rs lines 131-145): panics
(modelled as `none`) when `cnt` exceeds the remaining total, otherwise
consumes `cnt` bytes from the front. -/
def BytesBuf.advance (buf : BytesBuf) (cnt : Nat) : Option BytesBuf :=
  if buf.len < cnt then none
  else some { bytes := advanceChunks buf.bytes cnt, len := buf.len - cnt }

/-- The bytes of the buffer in order, front chunk first. -/
def BytesBuf.toBytes (buf : BytesBuf) : List Nat := buf.bytes.flatten

/-- Embeds `Read::read for BytesBuf` (src/body.rs lines 147-155): the
destination is shrunk to `remaining()` when larger, then the external
`Buf::copy_to_slice` (sequential chunk copy plus `advance`) fills it; the
returned value is the list of bytes copied (its length is the count `read`
returns).  A panic anywhere inside is `none`. -/
def BytesBuf.read (buf : BytesBuf) (n : Nat) : Option (List Nat × BytesBuf) :=
  let m := if buf.remaining < n then buf.remaining else n
  match buf.advance m with
  | some rest => some (buf.toBytes.take m, rest)
  | none => none

/-- Models `<usize as FromStr>::from_str` from the Rust standard library
(external), as used by the `content_length_limit` handler: an optional `+`,
then at least one decimal digit, within the 64-bit range. -/
def usizeFromStr (s : List Char) : Option Nat :=
  match s with
  | [] => none
  | '+' :: rest =>
    match rest with
    | [] => none
    | _ => (digitsValAux rest 0).bind fun n =>
        if n < 18446744073709551616 then some n else none
  | _ => (digitsValAux s 0).bind fun n =>
      if n < 18446744073709551616 then some n else none

/-- Models hyper's `HeaderValue::to_str` (external): succeeds only when every
byte is visible ASCII, space or horizontal tab. -/
def headerValueToStr (v : List Char) : Option (List Char) :=
  if v.all (fun c => (32 ≤ c.toNat && c.toNat ≠ 127) || c.toNat = 9) then some v
  else none

/-- The combined `value.to_str().ok().and_then(|str| str.parse::<usize>().ok())`
step of the `content_length_limit` handler (src/body.rs). -/
def contentLengthParse (v : List Char) : Option Nat :=
  (headerValueToStr v).bind usizeFromStr

/-- Embeds the `handler` inside `content_length_limit` (src/body.rs lines
176-198): no header gives `Ok(())`; a parsed length within the limit gives
`Ok(())`; above it, `Err(ContentLengthError { length })`.  The `expect` on an
unparseable value panics, modelled as `none`. -/
def contentLengthHandle (limit : Nat) (value : Option (List Char)) :
    Option (Except ErrPayload Unit) :=
  match value with
  | some v => (contentLengthParse v).map fun length =>
      if length ≤ limit then .ok () else .error (.contentLength length)
  | none => some (.ok ())

/-- Embeds the `content_length_limit(limit)` filter (src/body.rs): the
assembly `header::value_optional(CONTENT_LENGTH).and(cloning(limit))
.handle(handler).untuple()` collapses to running the handler on the request's
`Content-Length` header value with the request state passed through
untouched (none of the parts reads or writes it); `Ok` becomes Success and
`Err` becomes Error as in `Handle`. -/
def contentLengthLimit (limit : Nat) (request : Request) (st : RequestState) :
    Option (RequestState × Outcome Unit Unit) :=
  (contentLengthHandle limit request.contentLength).map fun r =>
    (st, match r with
         | .ok _ => .success ()
         | .error e => .error e)

/-- The Forward-input identity invariant of the outcome protocol
(src/outcome.rs doc: Forward's `input` must equal the original input the step
received). -/
def PreservesForwardInput {C S : Type} (f : Filter C S) : Prop :=
  ∀ request st input st1 input1 fwd,
    f request st input = (st1, .forward input1 fwd) → input1 = input

/-- A request state with a finished empty body and the cursor at the start,
used to instantiate the theorems below on concrete inputs. -/
def st0 : RequestState := { body := .finished [] 0, currentPathIndex := 0 }

/-- A request with an empty path and no Content-Length header. -/
def req0 : Request := { fullPath := [], contentLength := none }

/-- A test filter that consumes `k` path elements and forwards with reason
`fwd`, returning its input. -/
def fwdStep (k : Nat) (fwd : Forwarding) : Filter Unit Unit :=
  fun _ st _ => ({ st with currentPathIndex := st.currentPathIndex + k }, .forward () fwd)

/-- A test filter that consumes `k` path elements and then fails with the
error `e`. -/
def errStep (k : Nat) (e : ErrPayload) : Filter Unit Unit :=
  fun _ st _ => ({ st with currentPathIndex := st.currentPathIndex + k }, .error e)

/-- A test filter that consumes `k` path elements and succeeds. -/
def okStep (k : Nat) : Filter Unit Unit :=
  fun _ st _ => ({ st with currentPathIndex := st.currentPathIndex + k }, .success ())

/-- C6: `Forwarding.combine` is a commutative monoid on forwarding reasons:
`NotFound` is a two-sided identity, two `MethodNotAllowed` values union their
attempted-method sets, and the operation is associative and commutative. -/
theorem forwarding_combine_monoid :
    (∀ x : Forwarding, Forwarding.combine .notFound x = x) ∧
    (∀ x : Forwarding, Forwarding.combine x .notFound = x) ∧
    (∀ s1 s2 : AttemptedMethods,
      Forwarding.combine (.methodNotAllowed s1) (.methodNotAllowed s2) =
        .methodNotAllowed (s1 ||| s2)) ∧
    (∀ x y z : Forwarding, (x.combine y).combine z = x.combine (y.combine z)) ∧
    (∀ x y : Forwarding, x.combine y = y.combine x) := by
  refine ⟨fun x => rfl, fun x => ?_, fun s1 s2 => rfl, fun x y z => ?_, fun x y => ?_⟩
  · cases x <;> rfl
  · cases x <;> cases y <;> cases z <;> simp [Forwarding.combine, Nat.lor_assoc]
  · cases x <;> cases y <;> simp [Forwarding.combine, Nat.lor_comm]

/-- C10: when `Recover`'s wrapped filter itself returns Success, the
composite still resets the path cursor to its value at `Recover`'s entry,
discarding any path the successful inner filter consumed. -/
theorem recover_success_resets_cursor {C S : Type} (filter : Filter C S)
    (target : RTarget) (func : ErrPayload → Except ErrPayload S)
    (request : Request) (st : RequestState) (input : C) (st1 : RequestState) (s : S)
    (h : filter request st input = (st1, .success s)) :
    recoverF filter target func request st input =
      ({ st1 with currentPathIndex := st.currentPathIndex }, .success s) := by
  simp [recoverF, h]

/-- Witness for C10: a filter that consumes five path elements and succeeds,
wrapped in `Recover`, hands back the entry cursor. -/
theorem recover_success_resets_cursor_inst :
    recoverF (okStep 5) .universal (fun _ => .ok ()) req0 st0 () = (st0, .success ()) :=
  recover_success_resets_cursor (okStep 5) .universal (fun _ => .ok ())
    req0 st0 () { st0 with currentPathIndex := 5 } () rfl

/-- C1: `Or` passes `first`'s Success and Error through unchanged; when
`first` forwards, `second` runs with the forwarded input on a cursor reset to
the value at `Or`'s entry, and when `second` also forwards, the cursor is
reset again and the resulting Forward carries the combined reason. -/
theorem or_backtracks_and_combines {C S : Type} (first second : Filter C S)
    (request : Request) (st : RequestState) (input : C) :
    (∀ st1 s, first request st input = (st1, .success s) →
        orF first second request st input = (st1, .success s)) ∧
    (∀ st1 e, first request st input = (st1, .error e) →
        orF first second request st input = (st1, .error e)) ∧
    (∀ st1 inp fwd1, first request st input = (st1, .forward inp fwd1) →
      ({ st1 with currentPathIndex := st.currentPathIndex } :
          RequestState).currentPathIndex = st.currentPathIndex ∧
      (∀ st2 s,
        second request { st1 with currentPathIndex := st.currentPathIndex } inp =
            (st2, .success s) →
          orF first second request st input = (st2, .success s)) ∧
      (∀ st2 e,
        second request { st1 with currentPathIndex := st.currentPathIndex } inp =
            (st2, .error e) →
          orF first second request st input = (st2, .error e)) ∧
      (∀ st2 inp2 fwd2,
        second request { st1 with currentPathIndex := st.currentPathIndex } inp =
            (st2, .forward inp2 fwd2) →
          orF first second request st input =
            ({ st2 with currentPathIndex := st.currentPathIndex },
              .forward inp2 (fwd1.combine fwd2)))) := by
  refine ⟨fun st1 s h => by simp [orF, h],
    fun st1 e h => by simp [orF, h],
    fun st1 inp fwd1 h => ⟨rfl,
      fun st2 s h2 => by simp [orF, h, h2],
      fun st2 e h2 => by simp [orF, h, h2],
      fun st2 inp2 fwd2 h2 => by simp [orF, h, h2]⟩⟩

/-- Witness for C1: a branch that consumes three elements and forwards
`NotFound`, followed by a branch that consumes five and forwards
`MethodNotAllowed`, yields the entry cursor and the combined reason. -/
theorem or_backtracks_and_combines_inst :
    orF (fwdStep 3 .notFound) (fwdStep 5 (.methodNotAllowed 1)) req0 st0 () =
      (st0, .forward () (.methodNotAllowed 1)) :=
  ((or_backtracks_and_combines (fwdStep 3 .notFound) (fwdStep 5 (.methodNotAllowed 1))
        req0 st0 ()).2.2 { st0 with currentPathIndex := 3 } () .notFound rfl).2.2.2
    { st0 with currentPathIndex := 5 } () (.methodNotAllowed 1) rfl

/-- C2: a `Recover` declared for a concrete error type intercepts an Error
exactly when the boxed failure's runtime type equals the declared type; on a
mismatch the original Error repropagates unchanged, so in a nested chain the
recovery whose declared type equals the error's concrete type is the one that
intercepts; a `Recover` declared for the universal boxed-error type
intercepts every Error. -/
theorem recover_exact_type_match {C S : Type} (filter : Filter C S)
    (request : Request) (st : RequestState) (input : C) :
    (∀ st1 e ty (func : ErrPayload → Except ErrPayload S),
      filter request st input = (st1, .error e) →
      (typeId e = ty →
        recoverF filter (.concrete ty) func request st input =
          (match func e with
           | .ok v => ({ st1 with currentPathIndex := st.currentPathIndex }, .success v)
           | .error e2 => ({ st1 with currentPathIndex := st.currentPathIndex }, .error e2))) ∧
      (typeId e ≠ ty →
        recoverF filter (.concrete ty) func request st input = (st1, .error e)) ∧
      (recoverF filter .universal func request st input =
          (match func e with
           | .ok v => ({ st1 with currentPathIndex := st.currentPathIndex }, .success v)
           | .error e2 => ({ st1 with currentPathIndex := st.currentPathIndex }, .error e2)))) ∧
    (∀ st1 e ty1 (f1 f2 : ErrPayload → Except ErrPayload S),
      filter request st input = (st1, .error e) →
      typeId e ≠ ty1 →
      recoverF (recoverF filter (.concrete ty1) f1) (.concrete (typeId e)) f2
          request st input =
        (match f2 e with
         | .ok v => ({ st1 with currentPathIndex := st.currentPathIndex }, .success v)
         | .error e2 => ({ st1 with currentPathIndex := st.currentPathIndex }, .error e2))) := by
  constructor
  · intro st1 e ty func h
    refine ⟨fun hty => ?_, fun hty => ?_, ?_⟩
    · cases hf : func e <;> simp [recoverF, h, RTarget.recoverErr, hty, hf]
    · simp [recoverF, h, RTarget.recoverErr, hty]
    · cases hf : func e <;> simp [recoverF, h, RTarget.recoverErr, hf]
  · intro st1 e ty1 f1 f2 h hty
    cases hf : f2 e <;> simp [recoverF, h, RTarget.recoverErr, hty, hf]

/-- Witness for C2: an error of type `other 7` passes untouched through a
recovery declared for type id 0 and is intercepted by an enclosing recovery
declared for its own type id. -/
theorem recover_exact_type_match_inst :
    recoverF (recoverF (errStep 2 (.other 7 4)) (.concrete 0) (fun _ => .ok ()))
        (.concrete (typeId (.other 7 4))) (fun _ => .ok ()) req0 st0 () =
      (st0, .success ()) :=
  (recover_exact_type_match (errStep 2 (.other 7 4)) req0 st0 ()).2
    { st0 with currentPathIndex := 2 } (.other 7 4) 0 (fun _ => .ok ()) (fun _ => .ok ())
    rfl (by decide)

/-- C3 counterexample: the claim says `RecoverForward` restores the entry
cursor exactly as `Recover` does, but on a wrapped filter that consumes one
path element and fails with `ForwardParam`, whose exact-type downcast
succeeds and whose recovery function returns `Ok`, the returned cursor is 1,
not the entry value 0. -/
theorem recover_forward_no_cursor_restore_cex :
    errStep 1 .forwardParam req0 st0 () =
      ({ st0 with currentPathIndex := 1 }, .error .forwardParam) ∧
    (RTarget.concrete (typeId .forwardParam)).recoverErr .forwardParam =
      .ok .forwardParam ∧
    recoverForwardF (errStep 1 .forwardParam) (.concrete (typeId .forwardParam))
        (fun _ => .ok .notFound) req0 st0 () =
      ({ st0 with currentPathIndex := 1 }, .forward () .notFound) ∧
    ({ st0 with currentPathIndex := 1 } : RequestState).currentPathIndex ≠
      st0.currentPathIndex :=
  ⟨rfl, rfl, rfl, by decide⟩

/-- C3 (amended): when `Recover`'s wrapped filter errors, the exact-type
downcast succeeds and the recovery function returns `Ok`, the returned path
cursor equals its value at the combinator's entry; `RecoverForward` in the
same situation turns the `Ok` value into a Forward reason but does not
restore the cursor: it returns the `RequestState` exactly as the wrapped
filter left it. -/
theorem recover_cursor_on_recovery {C S : Type} :
    (∀ (filter : Filter C S) (target : RTarget)
        (func : ErrPayload → Except ErrPayload S) request st input st1 e typed v,
      filter request st input = (st1, .error e) →
      target.recoverErr e = .ok typed →
      func typed = .ok v →
      recoverF filter target func request st input =
        ({ st1 with currentPathIndex := st.currentPathIndex }, .success v)) ∧
    (∀ (filter : Filter Unit S) (target : RTarget)
        (func : ErrPayload → Except ErrPayload Forwarding) request st st1 e typed fwd,
      filter request st () = (st1, .error e) →
      target.recoverErr e = .ok typed →
      func typed = .ok fwd →
      recoverForwardF filter target func request st () = (st1, .forward () fwd)) := by
  constructor
  · intro filter target func request st input st1 e typed v h1 h2 h3
    simp [recoverF, h1, h2, h3]
  · intro filter target func request st st1 e typed fwd h1 h2 h3
    simp [recoverForwardF, h1, h2, h3]

/-- Witness for C3: both parts of the amended statement at concrete inputs -
`Recover` hands back the entry cursor, `RecoverForward` hands back the
wrapped filter's advanced cursor. -/
theorem recover_cursor_on_recovery_inst :
    recoverF (errStep 2 .forwardParam) (.concrete (typeId .forwardParam))
        (fun _ => .ok ()) req0 st0 () = (st0, .success ()) ∧
    recoverForwardF (errStep 1 .forwardParam) .universal
        (fun _ => .ok .notFound) req0 st0 () =
      ({ st0 with currentPathIndex := 1 }, .forward () .notFound) :=
  ⟨(recover_cursor_on_recovery (C := Unit) (S := Unit)).1 (errStep 2 .forwardParam)
      (.concrete (typeId .forwardParam)) (fun _ => .ok ()) req0 st0 ()
      { st0 with currentPathIndex := 2 } .forwardParam .forwardParam () rfl rfl rfl,
    (recover_cursor_on_recovery (C := Unit) (S := Unit)).2 (errStep 1 .forwardParam)
      .universal (fun _ => .ok .notFound) req0 st0
      { st0 with currentPathIndex := 1 } .forwardParam .forwardParam .notFound rfl rfl rfl⟩

/-- C4: Forward-input identity is preserved by composition: for `And`,
`Then`, `Receive`, `Or` and `Handle`, if the sub-filters return the original
input on every Forward, so does the composite. -/
theorem composition_preserves_forward_input :
    (∀ (SA C SB : Type) (first : Filter Unit SA) (second : Filter C SB),
      PreservesForwardInput first → PreservesForwardInput second →
      PreservesForwardInput (andF first second)) ∧
    (∀ (SA R S : Type) (first : Filter Unit SA) (second : Filter (R × SA) S),
      PreservesForwardInput first → PreservesForwardInput second →
      PreservesForwardInput (thenF first second)) ∧
    (∀ (R CI S : Type) (filter : Filter CI S),
      PreservesForwardInput filter →
      PreservesForwardInput (receiveF (R := R) filter)) ∧
    (∀ (C S : Type) (first second : Filter C S),
      PreservesForwardInput first → PreservesForwardInput second →
      PreservesForwardInput (orF first second)) ∧
    (∀ (C S T : Type) (filter : Filter C S) (func : S → Except ErrPayload T),
      PreservesForwardInput filter →
      PreservesForwardInput (handleF filter func)) := by
  refine ⟨?_, ?_, ?_, ?_, ?_⟩
  · intro SA C SB first second _ hs request st input st1 input1 fwd h
    simp only [andF] at h
    rcases h1 : first request st () with ⟨stA, oA⟩
    rw [h1] at h
    cases oA with
    | success sa =>
      simp at h
      rcases h2 : second request stA input with ⟨stB, oB⟩
      rw [h2] at h
      cases oB with
      | success sb => simp at h
      | error e => simp at h
      | forward inp fwdB =>
        simp at h
        exact h.2.1.symm.trans (hs request stA input stB inp fwdB h2)
    | error e => simp at h
    | forward inp fwdA =>
      simp at h
      exact h.2.1.symm
  · intro SA R S first second _ hs request st input st1 input1 fwd h
    simp only [thenF] at h
    rcases h1 : first request st () with ⟨stA, oA⟩
    rw [h1] at h
    cases oA with
    | success sa =>
      simp at h
      rcases h2 : second request stA (input, sa) with ⟨stB, oB⟩
      rw [h2] at h
      cases oB with
      | success s => simp at h
      | error e => simp at h
      | forward inp fwdB =>
        simp at h
        rw [← h.2.1, hs request stA (input, sa) stB inp fwdB h2]
    | error e => simp at h
    | forward inp fwdA =>
      simp at h
      exact h.2.1.symm
  · intro R CI S filter hf request st input st1 input1 fwd h
    simp only [receiveF] at h
    rcases h1 : filter request st input.2 with ⟨stA, oA⟩
    rw [h1] at h
    cases oA with
    | success s => simp at h
    | error e => simp at h
    | forward inp fwdA =>
      simp at h
      rw [← h.2.1, hf request st input.2 stA inp fwdA h1]
  · intro C S first second hf hs request st input st1 input1 fwd h
    simp only [orF] at h
    rcases h1 : first request st input with ⟨stA, oA⟩
    rw [h1] at h
    cases oA with
    | success s => simp at h
    | error e => simp at h
    | forward inp fwdA =>
      simp at h
      rcases h2 : second request { stA with currentPathIndex := st.currentPathIndex }
          inp with ⟨stB, oB⟩
      rw [h2] at h
      cases oB with
      | success s => simp at h
      | error e => simp at h
      | forward inp2 fwdB =>
        simp at h
        have hinp : inp = input := hf request st input stA inp fwdA h1
        have hinp2 : inp2 = inp :=
          hs request { stA with currentPathIndex := st.currentPathIndex } inp
            stB inp2 fwdB h2
        exact h.2.1.symm.trans (hinp2.trans hinp)
  · intro C S T filter func hf request st input st1 input1 fwd h
    simp only [handleF] at h
    rcases h1 : filter request st input with ⟨stA, oA⟩
    rw [h1] at h
    cases oA with
    | success s =>
      simp at h
      cases hfn : func s <;> rw [hfn] at h <;> simp at h
    | error e => simp at h
    | forward inp fwdA =>
      simp at h
      exact h.2.1.symm.trans (hf request st input stA inp fwdA h1)

/-- Witness for C4: each of the five composites, built from test filters that
satisfy the invariant, returns its original input on Forward. -/
theorem composition_preserves_forward_input_inst :
    PreservesForwardInput (andF (fwdStep 1 .notFound) (fwdStep 2 .notFound)) ∧
    PreservesForwardInput (thenF (fwdStep 1 .notFound)
      ((fun _ st _ => (st, .forward ((), ()) .notFound)) : Filter (Unit × Unit) Unit)) ∧
    PreservesForwardInput (receiveF (R := Unit) (fwdStep 1 .notFound)) ∧
    PreservesForwardInput (orF (fwdStep 1 .notFound) (fwdStep 2 .notFound)) ∧
    PreservesForwardInput (handleF (fwdStep 1 .notFound)
      (fun _ => (.ok () : Except ErrPayload Unit))) := by
  have hstep : ∀ k fwd, PreservesForwardInput (fwdStep k fwd) := by
    intro k fwd request st input st1 input1 f h
    cases input; cases input1; rfl
  have hpair : PreservesForwardInput
      ((fun _ st _ => (st, .forward ((), ()) .notFound)) : Filter (Unit × Unit) Unit) := by
    intro request st input st1 input1 f h
    exact Subsingleton.elim input1 input
  exact ⟨composition_preserves_forward_input.1 Unit Unit Unit _ _ (hstep 1 .notFound)
      (hstep 2 .notFound),
    composition_preserves_forward_input.2.1 Unit Unit Unit _ _ (hstep 1 .notFound) hpair,
    composition_preserves_forward_input.2.2.1 Unit Unit Unit _ (hstep 1 .notFound),
    composition_preserves_forward_input.2.2.2.1 Unit Unit _ _ (hstep 1 .notFound)
      (hstep 2 .notFound),
    composition_preserves_forward_input.2.2.2.2 Unit Unit Unit _ _ (hstep 1 .notFound)⟩

/-- C5: `end()` succeeds when the full request path is empty or root, or when
no path remains at the cursor; when exactly one trailing slash remains it
returns an Error (which `Or` cannot intercept) whose payload is a
permanent-redirect (308) carrying the slash-stripped, already-consumed path;
any other remaining path gives `Forward(NotFound)`. -/
theorem end_filter_spec (request : Request) (st : RequestState) :
    (request.fullPath = [] ∨ request.fullPath = ['/'] →
      endFilter request st () = (st, .success ())) ∧
    (¬(request.fullPath = [] ∨ request.fullPath = ['/']) →
      (request.fullPath.drop st.currentPathIndex = [] →
        endFilter request st () = (st, .success ())) ∧
      (request.fullPath.drop st.currentPathIndex = ['/'] →
        endFilter request st () =
          (st, .error (.redirect (request.fullPath.take st.currentPathIndex))) ∧
        intoResponseStatus (.redirect (request.fullPath.take st.currentPathIndex)) =
          some 308 ∧
        request.fullPath = request.fullPath.take st.currentPathIndex ++ ['/'] ∧
        (∀ second : Filter Unit Unit,
          orF endFilter second request st () =
            (st, .error (.redirect (request.fullPath.take st.currentPathIndex))))) ∧
      (request.fullPath.drop st.currentPathIndex ≠ [] →
        request.fullPath.drop st.currentPathIndex ≠ ['/'] →
        endFilter request st () = (st, .forward () .notFound))) := by
  constructor
  · intro h
    rcases h with h | h <;> simp [endFilter, h]
  · intro hne
    refine ⟨fun hdrop => ?_, fun hdrop => ?_, fun h1 h2 => ?_⟩
    · simp [endFilter, hne, hdrop]
    · have hend : endFilter request st () =
          (st, .error (.redirect (request.fullPath.take st.currentPathIndex))) := by
        simp [endFilter, hne, hdrop]
      refine ⟨hend, rfl, ?_, fun second => by simp [orF, hend]⟩
      conv_lhs => rw [← List.take_append_drop st.currentPathIndex request.fullPath]
      rw [hdrop]
    · rcases hd : request.fullPath.drop st.currentPathIndex with _ | ⟨c, rest⟩
      · exact absurd hd h1
      · rcases rest with _ | ⟨c2, rest2⟩
        · have hc : c ≠ '/' := by
            intro hc
            exact h2 (by rw [hd, hc])
          simp [endFilter, hne, hd, hc]
        · simp [endFilter, hne, hd]

/-- Witness for C5: the root path succeeds; the path `/foo/` with the cursor
after `foo` yields the 308 redirect error to `/foo`, also through an `Or`;
the path `/foo/x` with the cursor after `foo` forwards. -/
theorem end_filter_spec_inst :
    endFilter { fullPath := ['/'], contentLength := none } st0 () =
      (st0, .success ()) ∧
    endFilter { fullPath := "/foo/".data, contentLength := none }
        { st0 with currentPathIndex := 4 } () =
      ({ st0 with currentPathIndex := 4 }, .error (.redirect "/foo".data)) ∧
    orF endFilter (okStep 0) { fullPath := "/foo/".data, contentLength := none }
        { st0 with currentPathIndex := 4 } () =
      ({ st0 with currentPathIndex := 4 }, .error (.redirect "/foo".data)) ∧
    endFilter { fullPath := "/foo/x".data, contentLength := none }
        { st0 with currentPathIndex := 4 } () =
      ({ st0 with currentPathIndex := 4 }, .forward () .notFound) := by
  have h1 := (end_filter_spec { fullPath := ['/'], contentLength := none } st0).1
    (Or.inr rfl)
  have h2 := (end_filter_spec { fullPath := "/foo/".data, contentLength := none }
    { st0 with currentPathIndex := 4 }).2 (by decide) |>.2.1 (by decide)
  have h3 := (end_filter_spec { fullPath := "/foo/x".data, contentLength := none }
    { st0 with currentPathIndex := 4 }).2 (by decide) |>.2.2 (by decide) (by decide)
  exact ⟨h1, h2.1, h2.2.2.2 (okStep 0), h3⟩

/-- The route chain of C7: `literal("a")` then `param::<i32>` then
`literal("bar")` then `end()`, composed by `And` as in the repository's own
`number_param` test (src/path.rs). -/
def routeChain : Filter Unit (((Unit × Int) × Unit) × Unit) :=
  andF (andF (andF (literal "a".data) (param i32FromStr)) (literal "bar".data)) endFilter

/-- C7: the chain `literal("a") → param::<i32> → literal("bar") → end()`
succeeds with 2345 on path `/a/2345/bar` and forwards `NotFound` on
`/a/2345x/bar`; in general a typed parameter turns any parse failure on a
non-empty segment into `Forward(NotFound)` (with the segment still consumed)
and never returns an Error. -/
theorem param_chain_spec :
    (routeChain { fullPath := "/a/2345/bar".data, contentLength := none } st0 () =
      ({ st0 with currentPathIndex := 11 },
        .success ((((), (2345 : Int)), ()), ()))) ∧
    (routeChain { fullPath := "/a/2345x/bar".data, contentLength := none } st0 () =
      ({ st0 with currentPathIndex := 8 }, .forward () .notFound)) ∧
    (∀ (τ : Type) (fromStr : List Char → Option τ) (request : Request)
        (st : RequestState) (seg : List Char) (len : Nat),
      segmentFn request.fullPath st.currentPathIndex = some (seg, len) →
      seg ≠ [] →
      fromStr (percentDecode seg) = none →
      param fromStr request st () =
        ({ st with currentPathIndex := st.currentPathIndex + len },
          .forward () .notFound)) ∧
    (∀ (τ : Type) (fromStr : List Char → Option τ) (request : Request)
        (st : RequestState) (e : ErrPayload),
      (param fromStr request st ()).2 ≠ .error e) := by
  refine ⟨by decide, by decide, ?_, ?_⟩
  · intro τ fromStr request st seg len hseg _ hfrom
    simp [param, recoverForwardF, handleF, paramStr, decodedSegment, hseg, hfrom,
      RTarget.recoverErr, typeId]
  · intro τ fromStr request st e
    rcases hseg : segmentFn request.fullPath st.currentPathIndex with _ | ⟨seg, len⟩
    · simp [param, recoverForwardF, handleF, paramStr, decodedSegment, hseg]
    · rcases hfrom : fromStr (percentDecode seg) with _ | v
      · simp [param, recoverForwardF, handleF, paramStr, decodedSegment, hseg, hfrom,
          RTarget.recoverErr, typeId]
      · simp [param, recoverForwardF, handleF, paramStr, decodedSegment, hseg, hfrom]

/-- Witness for C7: `param::<i32>` on the segment `2345x` of `/a/2345x/bar`
consumes the segment and forwards `NotFound`. -/
theorem param_chain_spec_inst :
    param i32FromStr { fullPath := "/a/2345x/bar".data, contentLength := none }
        { st0 with currentPathIndex := 2 } () =
      ({ st0 with currentPathIndex := 8 }, .forward () .notFound) :=
  param_chain_spec.2.2.1 Int i32FromStr
    { fullPath := "/a/2345x/bar".data, contentLength := none }
    { st0 with currentPathIndex := 2 } "2345x".data 6 (by decide) (by decide) (by decide)

/-- C8: `content_length_limit(L)` succeeds when the Content-Length header is
absent or parses to a length within `L`, and fails with
`ContentLengthError { length }` when the parsed length exceeds `L` - in every
case handing back the request state untouched, before any body byte is
read. -/
theorem content_length_limit_spec (limit : Nat) (request : Request)
    (st : RequestState) :
    (request.contentLength = none →
      contentLengthLimit limit request st = some (st, .success ())) ∧
    (∀ v n, request.contentLength = some v → contentLengthParse v = some n →
      n ≤ limit →
      contentLengthLimit limit request st = some (st, .success ())) ∧
    (∀ v n, request.contentLength = some v → contentLengthParse v = some n →
      limit < n →
      contentLengthLimit limit request st = some (st, .error (.contentLength n))) := by
  refine ⟨fun h => by simp [contentLengthLimit, contentLengthHandle, h],
    fun v n hv hn hle => by simp [contentLengthLimit, contentLengthHandle, hv, hn, hle],
    fun v n hv hn hlt => ?_⟩
  have hnle : ¬n ≤ limit := by omega
  simp [contentLengthLimit, contentLengthHandle, hv, hn, hnle]

/-- Witness for C8: with limit 5, a missing header succeeds, header `4`
succeeds, and header `10` is rejected with `ContentLengthError 10`. -/
theorem content_length_limit_spec_inst :
    contentLengthLimit 5 req0 st0 = some (st0, .success ()) ∧
    contentLengthLimit 5 { fullPath := [], contentLength := some "4".data } st0 =
      some (st0, .success ()) ∧
    contentLengthLimit 5 { fullPath := [], contentLength := some "10".data } st0 =
      some (st0, .error (.contentLength 10)) :=
  ⟨(content_length_limit_spec 5 req0 st0).1 rfl,
    (content_length_limit_spec 5
        { fullPath := [], contentLength := some "4".data } st0).2.1
      "4".data 4 rfl (by decide) (by decide),
    (content_length_limit_spec 5
        { fullPath := [], contentLength := some "10".data } st0).2.2
      "10".data 10 rfl (by decide) (by decide)⟩

/-- The body buffer of C9: chunks `[b"abcdefg", b"hij"]`, total length 10. -/
def buf0 : BytesBuf :=
  { bytes := [[97, 98, 99, 100, 101, 102, 103], [104, 105, 106]], len := 10 }

/-- C9: on the buffer `[b"abcdefg", b"hij"]`, reading 4 then 3 then the
remaining 3 bytes reproduces the original bytes exactly and in order; a bulk
read never panics and, once the buffer is exhausted, reads 0 bytes; consuming
(`advance`) more than the remaining total panics by design. -/
theorem bytes_buf_read_spec :
    (buf0.read 4 =
        some ([97, 98, 99, 100],
          { bytes := [[101, 102, 103], [104, 105, 106]], len := 6 }) ∧
      BytesBuf.read { bytes := [[101, 102, 103], [104, 105, 106]], len := 6 } 3 =
        some ([101, 102, 103], { bytes := [[104, 105, 106]], len := 3 }) ∧
      BytesBuf.read { bytes := [[104, 105, 106]], len := 3 } 3 =
        some ([104, 105, 106], { bytes := [], len := 0 }) ∧
      [97, 98, 99, 100] ++ [101, 102, 103] ++ [104, 105, 106] = buf0.toBytes) ∧
    (∀ (buf : BytesBuf) (n : Nat), (buf.read n).isSome) ∧
    (∀ (buf : BytesBuf) (n : Nat), buf.len = 0 →
      ∃ rest, buf.read n = some ([], rest)) ∧
    (∀ (buf : BytesBuf) (cnt : Nat), buf.len < cnt → buf.advance cnt = none) := by
  refine ⟨by decide, ?_, ?_, fun buf cnt h => by simp [BytesBuf.advance, h]⟩
  · intro buf n
    by_cases hn : buf.len < n
    · simp [BytesBuf.read, BytesBuf.remaining, BytesBuf.advance, hn]
    · simp [BytesBuf.read, BytesBuf.remaining, BytesBuf.advance, hn]
  · intro buf n h0
    refine ⟨{ bytes := advanceChunks buf.bytes 0, len := 0 }, ?_⟩
    have hm : (if buf.remaining < n then buf.remaining else n) = 0 := by
      rcases Nat.eq_zero_or_pos n with h | h
      · simp [BytesBuf.remaining, h0, h]
      · simp [BytesBuf.remaining, h0, h]
    simp [BytesBuf.read, BytesBuf.advance, hm, h0]

/-- Witness for C9: an exhausted buffer reads 0 bytes without panicking, and
advancing `buf0` past its 10 remaining bytes panics. -/
theorem bytes_buf_read_spec_inst :
    (∃ rest, BytesBuf.read { bytes := [], len := 0 } 6 = some ([], rest)) ∧
    BytesBuf.advance buf0 11 = none :=
  ⟨bytes_buf_read_spec.2.2.1 { bytes := [], len := 0 } 6 rfl,
    bytes_buf_read_spec.2.2.2 buf0 11 (by decide)⟩

end Myth
